import Mathlib

/-!
# SnippetBox: the `models` package (`internal/models/snippet.go`)

A shallow embedding of `SnippetModel.Insert`, `SnippetModel.Get` and
`SnippetModel.Latest`, together with the two collaborators the functions talk
to:

* the `database/sql` handle (`*sql.DB`), embedded as a record of the three
  calls the package makes (`Exec`, `QueryRow(..).Scan(..)`, `Query`), each a
  state transformer over an arbitrary backend state, so that every outcome a
  driver can produce is covered;
* a MySQL `snippets` table with a UTC clock, which interprets the three SQL
  statements of the source text.

Timestamps are whole seconds (MySQL `DATETIME` resolution) as integers.
-/

namespace models

/-! ## Errors -/

/-- Error values created by `database/sql` or by the driver underneath it.
`ErrNoRows` is the sentinel `sql.ErrNoRows`; `driver code` is any other error
value; `wrapped msg inner` is an error whose `Unwrap` yields `inner`. -/
inductive SqlError where
  | ErrNoRows
  | driver (code : Nat)
  | wrapped (msg : String) (inner : SqlError)
deriving DecidableEq, Repr

/-- The function `errors.Is(err, target)`: `err` is `target`, or some error
reached from `err` by unwrapping is. -/
def errorsIs : SqlError → SqlError → Bool
  | .ErrNoRows, target => decide (SqlError.ErrNoRows = target)
  | .driver c, target => decide (SqlError.driver c = target)
  | .wrapped msg inner, target =>
      if SqlError.wrapped msg inner = target then true else errorsIs inner target

/-- Modelled from the spec: the `error` values the package hands to its
callers. The sentinel `ErrorNoRecord` is declared in the package outside
`snippet.go`; the spec describes it as the well-known NotFound condition that
callers tell apart from every store failure, so it is a value of its own,
next to the errors of the database layer, which are passed through as they
are (`store e`). -/
inductive Error where
  | noRecord
  | store (e : SqlError)
deriving DecidableEq, Repr

/-- Modelled from the spec: the sentinel `models.ErrorNoRecord` (NotFound). -/
def ErrorNoRecord : Error := Error.noRecord

/-! ## Data model -/

/-- The struct `Snippet`. `Created` and `Expires` are UTC instants in seconds. -/
structure Snippet where
  ID : Int
  Title : String
  Content : String
  Created : Int
  Expires : Int
deriving DecidableEq, Repr

/-- A result row with five columns, in the order the server sends them. -/
structure SqlRow where
  col0 : Int
  col1 : String
  col2 : String
  col3 : Int
  col4 : Int
deriving DecidableEq, Repr

/-- A bound statement argument. -/
inductive Value where
  | int (n : Int)
  | str (s : String)
deriving DecidableEq, Repr

/-- The value `sql.Result` of an `Exec`: what `LastInsertId()` will answer. -/
structure Result where
  LastInsertId : Except SqlError Int

/-- A `*sql.Rows` cursor. `pending` are the rows `Next` will still deliver,
each one with the outcome a five-destination `Scan` has on it; `lasterr` is
what `Err()` reports once `Next` has answered false; `closed` tells whether the
cursor has been released. -/
structure Rows where
  pending : List (Except SqlError SqlRow)
  lasterr : Option SqlError
  closed : Bool

/-- The method `rows.Close()`. -/
def Rows.Close (rows : Rows) : Rows := { rows with closed := true }

/-- The handle `*sql.DB` over a backend whose state has type `σ`.
`QueryRow stmt args` stands for `QueryRow(stmt, args...).Scan(d0, .., d4)`:
the error `Scan` returns, or the five columns it stored. -/
structure DB (σ : Type) where
  Exec : String → List Value → σ → Except SqlError Result × σ
  QueryRow : String → List Value → σ → Except SqlError SqlRow × σ
  Query : String → List Value → σ → Except SqlError Rows × σ

/-- Destinations `&s.ID, &s.Title, &s.Content, &s.Created, &s.Expires` filled
from a scanned row, column by column. -/
def scanInto (row : SqlRow) : Snippet :=
  { ID := row.col0, Title := row.col1, Content := row.col2,
    Created := row.col3, Expires := row.col4 }

/-- The conversion `int(id)` of an `int64` on a target whose `int` has 64 bits. -/
def toInt (id : Int) : Int := (id + 2 ^ 63) % 2 ^ 64 - 2 ^ 63

/-! ## The three statements -/

/-- Statement text of `Insert`. -/
def insertStmt : String :=
  "INSERT INTO snippets (title, content, created, expires)\n    VALUES(?, ?, UTC_TIMESTAMP(), DATE_ADD(UTC_TIMESTAMP(), INTERVAL ? DAY))"

/-- Statement text of `Get`. -/
def getStmt : String :=
  "SELECT * FROM snippets WHERE expires > UTC_TIMESTAMP() AND id = ?"

/-- Statement text of `Latest`. -/
def latestStmt : String :=
  "SELECT * FROM snippets WHERE expires > UTC_TIMESTAMP() ORDER BY id LIMIT 10"

/-! ## The functions of `snippet.go` -/

/-- The method `SnippetModel.Insert`: returns `(id, err)` and the backend state. -/
def Insert {σ : Type} (m : DB σ) (title : String) (content : String) (expires : Int)
    (s : σ) : (Int × Option Error) × σ :=
  match m.Exec insertStmt [Value.str title, Value.str content, Value.int expires] s with
  | (.error err, s1) => ((0, some (Error.store err)), s1)
  | (.ok result, s1) =>
    match result.LastInsertId with
    | .error err => ((0, some (Error.store err)), s1)
    | .ok id => ((toInt id, none), s1)

/-- The method `SnippetModel.Get`: returns `(snippet, err)` and the backend
state; `none` in the first component is the nil pointer. -/
def Get {σ : Type} (m : DB σ) (id : Int) (s : σ) : (Option Snippet × Option Error) × σ :=
  match m.QueryRow getStmt [Value.int id] s with
  | (.error err, s1) =>
    if errorsIs err SqlError.ErrNoRows then ((none, some ErrorNoRecord), s1)
    else ((none, some (Error.store err)), s1)
  | (.ok row, s1) => ((some (scanInto row), none), s1)

/-- How the statements of `Latest` after `defer rows.Close()` end. -/
structure LatestExit where
  snippets : Option (List Snippet)
  err : Option Error
  rows : Rows

/-- The loop `for rows.Next() { .. }` of `Latest` and the statements after it.
The first argument is what `Next` still has to deliver, the second the slice
`snippets` built so far. When `Next` answers false the iterator has released
the cursor itself; a failed `Scan` returns at once and leaves it as it is. -/
def latestLoop (rows : Rows) : List (Except SqlError SqlRow) → List Snippet → LatestExit
  | [], snippets =>
    match rows.lasterr with
    | some err => ⟨none, some (Error.store err), { rows with pending := [], closed := true }⟩
    | none => ⟨some snippets, none, { rows with pending := [], closed := true }⟩
  | .error err :: rest, _ => ⟨none, some (Error.store err), { rows with pending := rest }⟩
  | .ok row :: rest, snippets => latestLoop rows rest (snippets ++ [scanInto row])

/-- What `Next` can still deliver: nothing once the cursor is closed. -/
def Rows.deliverable (rows : Rows) : List (Except SqlError SqlRow) :=
  if rows.closed then [] else rows.pending

/-- The method `SnippetModel.Latest` with the cursor made visible: returns
`(snippets, err)`, the cursor as it is when the function returns (`none` when
the query failed and no cursor was opened), and the backend state. `none` in
the first component is the nil slice, `some []` the empty slice. -/
def LatestRun {σ : Type} (m : DB σ) (s : σ) :
    (Option (List Snippet) × Option Error) × Option Rows × σ :=
  match m.Query latestStmt [] s with
  | (.error err, s1) => ((none, some (Error.store err)), none, s1)
  | (.ok rows, s1) =>
    let exit := latestLoop rows rows.deliverable []
    -- the deferred `rows.Close()` runs on the way out
    ((exit.snippets, exit.err), some exit.rows.Close, s1)

/-- The method `SnippetModel.Latest`: returns `(snippets, err)` and the backend state. -/
def Latest {σ : Type} (m : DB σ) (s : σ) : (Option (List Snippet) × Option Error) × σ :=
  ((LatestRun m s).1, (LatestRun m s).2.2)

/-! ## The MySQL `snippets` table

The table of section 6 of the specification: `id` is an auto-increment integer
primary key, `title` and `content` are text stored as given, `created` and
`expires` are UTC instants. Date arithmetic is done on unbounded seconds; the
end of the `DATETIME` range is outside this model. -/

/-- Modelled from the spec: one stored row of the `snippets` table. No source
file declares the schema; section 6 of the specification gives the columns
`id, title, content, created, expires` in this order. -/
structure Record where
  id : Int
  title : String
  content : String
  created : Int
  expires : Int
deriving DecidableEq, Repr

/-- The table: its rows in storage order and the next `AUTO_INCREMENT` value. -/
structure Table where
  rows : List Record
  autoInc : Int
deriving DecidableEq, Repr

/-- Largest value of a MySQL `INTEGER` column. -/
def idMax : Int := 2147483647

/-- Server error for a statement the table does not serve (`ER_PARSE_ERROR`). -/
def errStatement : SqlError := SqlError.driver 1064

/-- Server error when the `AUTO_INCREMENT` counter has run past the column
type (`ER_AUTOINC_READ_FAILED`). -/
def errAutoInc : SqlError := SqlError.driver 1467

/-- The expression `DATE_ADD(t, INTERVAL n DAY)`. -/
def dateAddDays (t : Int) (n : Int) : Int := t + n * 86400

/-- The projection `SELECT *`: the columns in table order. -/
def selectStar (r : Record) : SqlRow :=
  { col0 := r.id, col1 := r.title, col2 := r.content, col3 := r.created, col4 := r.expires }

/-- The condition `expires > UTC_TIMESTAMP()` at instant `now`. -/
def live (now : Int) (r : Record) : Bool := decide (now < r.expires)

/-- The clause `ORDER BY id` (ascending). -/
def orderById (rows : List Record) : List Record :=
  rows.insertionSort (fun a b => a.id ≤ b.id)

/-- A freshly opened cursor over the given result rows. -/
def openCursor (rows : List Record) : Rows :=
  { pending := rows.map (fun r => Except.ok (selectStar r)), lasterr := none, closed := false }

/-- The server at the instant `now` (the value of `UTC_TIMESTAMP()` while the
statement runs), serving the three statements of the package. -/
def mysql (now : Int) : DB Table where
  Exec stmt args t :=
    if stmt = insertStmt then
      match args with
      | [Value.str title, Value.str content, Value.int days] =>
        if t.autoInc ≤ idMax then
          (Except.ok { LastInsertId := Except.ok t.autoInc },
            { rows := t.rows ++ [{ id := t.autoInc, title := title, content := content,
                                   created := now, expires := dateAddDays now days }],
              autoInc := t.autoInc + 1 })
        else (Except.error errAutoInc, t)
      | _ => (Except.error errStatement, t)
    else (Except.error errStatement, t)
  QueryRow stmt args t :=
    if stmt = getStmt then
      match args with
      | [Value.int id] =>
        match t.rows.filter (fun r => live now r && decide (r.id = id)) with
        | [] => (Except.error SqlError.ErrNoRows, t)
        | r :: _ => (Except.ok (selectStar r), t)
      | _ => (Except.error errStatement, t)
    else (Except.error errStatement, t)
  Query stmt args t :=
    if stmt = latestStmt then
      match args with
      | [] => (Except.ok (openCursor ((orderById (t.rows.filter (live now))).take 10)), t)
      | _ => (Except.error errStatement, t)
    else (Except.error errStatement, t)

/-- The empty table of a fresh schema: the counter starts at 1. -/
def emptyTable : Table := { rows := [], autoInc := 1 }

/-- Table invariant: `id` is a primary key handed out by the counter, so ids
are pairwise distinct, positive and below the counter. -/
def Table.WF (t : Table) : Prop :=
  t.rows.Pairwise (fun a b => a.id ≠ b.id) ∧ (∀ r ∈ t.rows, 1 ≤ r.id ∧ r.id < t.autoInc) ∧
    1 ≤ t.autoInc

instance (t : Table) : Decidable t.WF := by
  unfold Table.WF; infer_instance

/-! ## Sample tables -/

/-- A table with one row that expires at instant 100. -/
def expiringTable : Table :=
  { rows := [{ id := 1, title := "t", content := "c", created := 0, expires := 100 }],
    autoInc := 2 }

/-- The table after `Insert("Title A", "Body A", 7)` at instant 1000 on the
empty table. -/
def tableA : Table :=
  { rows := [Record.mk 1 "Title A" "Body A" 1000 (1000 + 7 * 86400)], autoInc := 2 }

/-- Insert `n` snippets, one per second starting at instant `now`, each
expiring after `days` days. -/
def insertSeq (days : Int) : Nat → Int → Table → Table
  | 0, _, t => t
  | n + 1, now, t => insertSeq days n (now + 1) (Insert (mysql now) "s" "body" days t).2

/-- Twelve snippets inserted at instants 1000 to 1011, each living 7 days. -/
def twelve : Table := insertSeq 7 12 1000 emptyTable

/-! ## Order instances for `ORDER BY id` -/

instance : IsTotal Record (fun a b => a.id ≤ b.id) := ⟨fun a b => Int.le_total a.id b.id⟩

instance : IsTrans Record (fun a b => a.id ≤ b.id) := ⟨fun _ _ _ hab hbc => Int.le_trans hab hbc⟩

/-! ## Lemmas on the embedding -/

theorem errorsIs_self (e : SqlError) : errorsIs e e = true := by
  cases e <;> simp [errorsIs]

/-- An error that wraps `sql.ErrNoRows` is `sql.ErrNoRows` for `errors.Is`. -/
theorem errorsIs_wrapped_ErrNoRows (msg : String) :
    errorsIs (SqlError.wrapped msg SqlError.ErrNoRows) SqlError.ErrNoRows = true := by
  simp [errorsIs]

theorem toInt_of_int64 (k : Int) (h1 : -(2 ^ 63) ≤ k) (h2 : k < 2 ^ 63) : toInt k = k := by
  unfold toInt
  have h : (k + 2 ^ 63) % 2 ^ 64 = k + 2 ^ 63 := Int.emod_eq_of_lt (by omega) (by omega)
  omega

theorem latestLoop_ok (rows : Rows) (delivered : List SqlRow) (acc : List Snippet) :
    latestLoop rows (delivered.map Except.ok) acc
      = latestLoop rows [] (acc ++ delivered.map scanInto) := by
  induction delivered generalizing acc with
  | nil => simp
  | cons r rest ih => simp [latestLoop, ih]

theorem latestLoop_error (rows : Rows) (pre : List SqlRow) (e : SqlError)
    (rest : List (Except SqlError SqlRow)) (acc : List Snippet) :
    latestLoop rows (pre.map Except.ok ++ Except.error e :: rest) acc
      = ⟨none, some (Error.store e), { rows with pending := rest }⟩ := by
  induction pre generalizing acc with
  | nil => simp [latestLoop]
  | cons r pre ih => simp [latestLoop, ih]

/-- A delivery either scans every row, or has a first row whose scan fails. -/
theorem delivery_cases (l : List (Except SqlError SqlRow)) :
    (∃ delivered : List SqlRow, l = delivered.map Except.ok) ∨
    (∃ (pre : List SqlRow) (e : SqlError) (rest : List (Except SqlError SqlRow)),
      l = pre.map Except.ok ++ Except.error e :: rest) := by
  induction l with
  | nil => exact Or.inl ⟨[], rfl⟩
  | cons x xs ih =>
    cases x with
    | error e => exact Or.inr ⟨[], e, xs, rfl⟩
    | ok r =>
      rcases ih with ⟨d, hd⟩ | ⟨pre, e, rest, hp⟩
      · exact Or.inl ⟨r :: d, by simp [hd]⟩
      · exact Or.inr ⟨r :: pre, e, rest, by simp [hp]⟩

theorem Latest_of_query_error {σ : Type} (m : DB σ) (s s1 : σ) (e : SqlError)
    (h : m.Query latestStmt [] s = (Except.error e, s1)) :
    LatestRun m s = ((none, some (Error.store e)), none, s1) := by
  simp [LatestRun, h]

theorem Latest_of_query_ok {σ : Type} (m : DB σ) (s s1 : σ) (rows : Rows)
    (h : m.Query latestStmt [] s = (Except.ok rows, s1)) :
    LatestRun m s = (((latestLoop rows rows.deliverable []).snippets,
      (latestLoop rows rows.deliverable []).err),
      some (latestLoop rows rows.deliverable []).rows.Close, s1) := by
  simp [LatestRun, h]

theorem latestLoop_scan_error_leaves_cursor (rows : Rows) (e : SqlError)
    (rest : List (Except SqlError SqlRow)) (acc : List Snippet) :
    (latestLoop rows (Except.error e :: rest) acc).rows.closed = rows.closed := by
  simp [latestLoop]

/-! ## Lemmas on the table -/

theorem Get_mysql_none (now id : Int) (t : Table)
    (h : t.rows.filter (fun r => live now r && decide (r.id = id)) = []) :
    Get (mysql now) id t = ((none, some ErrorNoRecord), t) := by
  simp [Get, mysql, h, errorsIs]

theorem Get_mysql_some (now id : Int) (t : Table) (r : Record) (rest : List Record)
    (h : t.rows.filter (fun r => live now r && decide (r.id = id)) = r :: rest) :
    Get (mysql now) id t = ((some (scanInto (selectStar r)), none), t) := by
  simp [Get, mysql, h]

theorem Get_mysql_state (now id : Int) (t : Table) : (Get (mysql now) id t).2 = t := by
  cases h : t.rows.filter (fun r => live now r && decide (r.id = id)) with
  | nil => rw [Get_mysql_none now id t h]
  | cons r rest => rw [Get_mysql_some now id t r rest h]

theorem Insert_mysql_ok (now : Int) (title content : String) (days : Int) (t : Table)
    (h : t.autoInc ≤ idMax) :
    Insert (mysql now) title content days t
      = ((toInt t.autoInc, none),
          { rows := t.rows ++ [{ id := t.autoInc, title := title, content := content,
                                 created := now, expires := dateAddDays now days }],
            autoInc := t.autoInc + 1 }) := by
  simp [Insert, mysql, h]

theorem Insert_mysql_exhausted (now : Int) (title content : String) (days : Int) (t : Table)
    (h : ¬ t.autoInc ≤ idMax) :
    Insert (mysql now) title content days t = ((0, some (Error.store errAutoInc)), t) := by
  simp [Insert, mysql, h]

theorem LatestRun_mysql (now : Int) (t : Table) :
    LatestRun (mysql now) t
      = ((some (((orderById (t.rows.filter (live now))).take 10).map
            (fun r => scanInto (selectStar r))), none),
          some { pending := [], lasterr := none, closed := true }, t) := by
  have hq : (mysql now).Query latestStmt [] t
      = (Except.ok (openCursor ((orderById (t.rows.filter (live now))).take 10)), t) := by
    simp [mysql]
  rw [Latest_of_query_ok (mysql now) t t _ hq]
  have hd : (openCursor ((orderById (t.rows.filter (live now))).take 10)).deliverable
      = (((orderById (t.rows.filter (live now))).take 10).map selectStar).map Except.ok := by
    simp [Rows.deliverable, openCursor, Function.comp_def]
  rw [hd, latestLoop_ok]
  simp [latestLoop, openCursor, Rows.Close, Function.comp_def]

theorem Latest_mysql (now : Int) (t : Table) :
    Latest (mysql now) t
      = ((some (((orderById (t.rows.filter (live now))).take 10).map
            (fun r => scanInto (selectStar r))), none), t) := by
  simp [Latest, LatestRun_mysql]

theorem emptyTable_WF : emptyTable.WF := by decide

/-- The invariant holds in every table reached by inserting: `Insert` keeps it
(`Get` and `Latest` leave the table as it is). -/
theorem Insert_preserves_WF (now : Int) (title content : String) (days : Int) (t : Table)
    (hwf : t.WF) : (Insert (mysql now) title content days t).2.WF := by
  obtain ⟨hne, hids, hpos⟩ := hwf
  by_cases hfull : t.autoInc ≤ idMax
  · rw [Insert_mysql_ok _ _ _ _ _ hfull]
    refine ⟨?_, ?_, ?_⟩
    · rw [List.pairwise_append]
      refine ⟨hne, List.pairwise_singleton _ _, ?_⟩
      intro a ha b hb
      have hb2 : b = Record.mk t.autoInc title content now (dateAddDays now days) := by
        simpa using hb
      have := (hids a ha).2
      rw [hb2]
      exact ne_of_lt this
    · intro r hr
      rcases List.mem_append.mp hr with hold | hnew
      · have := hids r hold
        exact ⟨this.1, by show r.id < t.autoInc + 1; omega⟩
      · have hr2 : r = Record.mk t.autoInc title content now (dateAddDays now days) := by
          simpa using hnew
        rw [hr2]
        exact ⟨hpos, by show t.autoInc < t.autoInc + 1; omega⟩
    · show 1 ≤ t.autoInc + 1
      omega
  · rw [Insert_mysql_exhausted _ _ _ _ _ hfull]
    exact ⟨hne, hids, hpos⟩

theorem filter_id_eq_nil (now id : Int) (rows : List Record)
    (h : ∀ r ∈ rows, r.id = id → r.expires ≤ now) :
    rows.filter (fun r => live now r && decide (r.id = id)) = [] := by
  rw [List.filter_eq_nil_iff]
  intro r hr
  simp only [live, Bool.and_eq_true, decide_eq_true_eq, not_and]
  intro hlive hid
  have := h r hr hid
  omega

theorem filter_id_same_liveness (t1 t2 id : Int) (rows : List Record)
    (h : ∀ r ∈ rows, r.id = id → (t1 < r.expires ↔ t2 < r.expires)) :
    rows.filter (fun r => live t2 r && decide (r.id = id))
      = rows.filter (fun r => live t1 r && decide (r.id = id)) := by
  apply List.filter_congr
  intro r hr
  by_cases hid : r.id = id
  · have := h r hr hid
    simp [live, hid, this]
  · simp [hid]

/-- Rows of a list with pairwise distinct ids are determined by their id. -/
theorem eq_of_id_eq (rows : List Record) (h : rows.Pairwise (fun a b => a.id ≠ b.id))
    (a b : Record) (ha : a ∈ rows) (hb : b ∈ rows) (hab : a.id = b.id) : a = b := by
  induction rows with
  | nil => simp at ha
  | cons x xs ih =>
    rw [List.pairwise_cons] at h
    rcases List.mem_cons.mp ha with rfl | ha2
    · rcases List.mem_cons.mp hb with rfl | hb2
      · rfl
      · exact absurd hab (h.1 b hb2)
    · rcases List.mem_cons.mp hb with rfl | hb2
      · exact absurd hab.symm (h.1 a ha2)
      · exact ih h.2 ha2 hb2

theorem orderById_perm (rows : List Record) : (orderById rows).Perm rows :=
  List.perm_insertionSort _ rows

/-- On rows with pairwise distinct ids, `ORDER BY id` yields strictly
increasing ids. -/
theorem orderById_strict (rows : List Record) (h : rows.Pairwise (fun a b => a.id ≠ b.id)) :
    (orderById rows).Pairwise (fun a b => a.id < b.id) := by
  have hs : (orderById rows).Pairwise (fun a b => a.id ≤ b.id) :=
    List.sorted_insertionSort _ rows
  have hne : (orderById rows).Pairwise (fun a b => a.id ≠ b.id) :=
    ((orderById_perm rows).pairwise_iff (fun {a b} (hab : a.id ≠ b.id) => hab.symm)).mpr h
  exact (hs.and hne).imp (fun {a b} hab => lt_of_le_of_ne hab.1 hab.2)

/-- A strictly increasing permutation of a list is what `ORDER BY id` returns. -/
theorem orderById_unique (rows sorted : List Record) (hp : sorted.Perm rows)
    (hs : sorted.Pairwise (fun a b => a.id < b.id)) : orderById rows = sorted := by
  have hne : rows.Pairwise (fun a b => a.id ≠ b.id) :=
    (hp.pairwise_iff (fun {a b} (hab : a.id ≠ b.id) => hab.symm)).mp
      (hs.imp (fun {a b} hab => ne_of_lt hab))
  have h2 : (orderById rows).Perm sorted := (orderById_perm rows).trans hp.symm
  have h3 := orderById_strict rows hne
  haveI : IsAntisymm Record (fun a b => a.id < b.id) :=
    ⟨fun a b h1 h2 => absurd h1 (not_lt_of_gt h2)⟩
  exact List.eq_of_perm_of_sorted (r := fun a b : Record => a.id < b.id) h2 h3 hs

/-! ## Error handling of the three functions, for every driver outcome -/

/-- C1: `Get` returns the nil snippet with `ErrorNoRecord` exactly when the row
scan fails with an error that is `sql.ErrNoRows` (in the sense of `errors.Is`);
on any other scan error `e` it returns the nil snippet with `e` itself, which
is never `ErrorNoRecord`; when the scan succeeds it returns a nil error and the
snippet whose `ID, Title, Content, Created, Expires` are the five columns of
the row in that order. -/
theorem Get_not_found_iff_ErrNoRows {σ : Type} (m : DB σ) (id : Int) (s : σ) :
    ((Get m id s).1 = (none, some ErrorNoRecord) ↔
      ∃ e, (m.QueryRow getStmt [Value.int id] s).1 = Except.error e ∧
        errorsIs e SqlError.ErrNoRows = true) ∧
    (∀ e, (m.QueryRow getStmt [Value.int id] s).1 = Except.error e →
      errorsIs e SqlError.ErrNoRows = false →
        (Get m id s).1 = (none, some (Error.store e)) ∧ Error.store e ≠ ErrorNoRecord) ∧
    (∀ row, (m.QueryRow getStmt [Value.int id] s).1 = Except.ok row →
      (Get m id s).1 = (some (Snippet.mk row.col0 row.col1 row.col2 row.col3 row.col4), none)) := by
  rcases h : m.QueryRow getStmt [Value.int id] s with ⟨out, s1⟩
  cases out with
  | error err =>
    cases hIs : errorsIs err SqlError.ErrNoRows <;>
      simp [Get, h, hIs, ErrorNoRecord]
  | ok row => simp [Get, h, scanInto]

/-- C7: `Insert` executes the statement with the arguments bound in the order
title, content, expires. If the execution fails with `e`, or it succeeds and
`LastInsertId` fails with `e`, `Insert` returns id 0 with `e` itself (an error
that is neither nil nor `ErrorNoRecord`); if both succeed with key `k`,
`Insert` returns `int(k)` and a nil error. -/
theorem Insert_result {σ : Type} (m : DB σ) (title content : String) (expires : Int) (s : σ) :
    (∀ e, (m.Exec insertStmt [Value.str title, Value.str content, Value.int expires] s).1
        = Except.error e →
      (Insert m title content expires s).1 = (0, some (Error.store e)) ∧
        Error.store e ≠ ErrorNoRecord) ∧
    (∀ result e, (m.Exec insertStmt [Value.str title, Value.str content, Value.int expires] s).1
        = Except.ok result → result.LastInsertId = Except.error e →
      (Insert m title content expires s).1 = (0, some (Error.store e)) ∧
        Error.store e ≠ ErrorNoRecord) ∧
    (∀ result k, (m.Exec insertStmt [Value.str title, Value.str content, Value.int expires] s).1
        = Except.ok result → result.LastInsertId = Except.ok k →
      (Insert m title content expires s).1 = (toInt k, none)) ∧
    (Insert m title content expires s).2
      = (m.Exec insertStmt [Value.str title, Value.str content, Value.int expires] s).2 := by
  rcases h : m.Exec insertStmt [Value.str title, Value.str content, Value.int expires] s
    with ⟨out, s1⟩
  cases out with
  | error err => simp [Insert, h, ErrorNoRecord]
  | ok result =>
    cases hk : result.LastInsertId with
    | error e1 =>
      simp only [Insert, h, hk]
      refine ⟨by simp, ?_, ?_, trivial⟩
      · intro r2 e hr hk2
        have hr2 : r2 = result := by simpa using hr.symm
        subst hr2
        have : e = e1 := by simpa [hk] using hk2.symm
        simp [this, ErrorNoRecord]
      · intro r2 k hr hk2
        have hr2 : r2 = result := by simpa using hr.symm
        subst hr2
        simp [hk] at hk2
    | ok k1 =>
      simp only [Insert, h, hk]
      refine ⟨by simp, ?_, ?_, trivial⟩
      · intro r2 e hr hk2
        have hr2 : r2 = result := by simpa using hr.symm
        subst hr2
        simp [hk] at hk2
      · intro r2 k hr hk2
        have hr2 : r2 = result := by simpa using hr.symm
        subst hr2
        have : k = k1 := by simpa [hk] using hk2.symm
        simp [this]

/-- C5: `Latest` is all-or-nothing. If the query fails with `e`, or a row scan
fails with `e` after any number of rows that scanned, or every row scans and
`rows.Err()` is `e`, it returns the nil slice with `e`. It returns a nil error
only when every delivered row scanned and `rows.Err()` is nil, and then the
slice holds every delivered row in delivery order. Whenever the error is
non-nil the slice is nil. -/
theorem Latest_all_or_nothing {σ : Type} (m : DB σ) (s : σ) :
    (∀ e, (m.Query latestStmt [] s).1 = Except.error e →
      (Latest m s).1 = (none, some (Error.store e))) ∧
    (∀ rows, (m.Query latestStmt [] s).1 = Except.ok rows →
      (∀ (pre : List SqlRow) e rest,
          rows.deliverable = pre.map Except.ok ++ Except.error e :: rest →
        (Latest m s).1 = (none, some (Error.store e))) ∧
      (∀ (delivered : List SqlRow) e,
          rows.deliverable = delivered.map Except.ok → rows.lasterr = some e →
        (Latest m s).1 = (none, some (Error.store e))) ∧
      (∀ (delivered : List SqlRow),
          rows.deliverable = delivered.map Except.ok → rows.lasterr = none →
        (Latest m s).1 = (some (delivered.map scanInto), none))) ∧
    ((Latest m s).1.2 = none →
      ∃ (rows : Rows) (delivered : List SqlRow), (m.Query latestStmt [] s).1 = Except.ok rows ∧
        rows.deliverable = delivered.map Except.ok ∧ rows.lasterr = none ∧
        (Latest m s).1.1 = some (delivered.map scanInto)) ∧
    ((Latest m s).1.2 ≠ none → (Latest m s).1.1 = none) := by
  rcases h : m.Query latestStmt [] s with ⟨out, s1⟩
  cases out with
  | error err => simp [Latest, Latest_of_query_error m s s1 err h]
  | ok rows =>
    have hrun := Latest_of_query_ok m s s1 rows h
    rcases delivery_cases rows.deliverable with ⟨d, hd⟩ | ⟨pre, e, rest, hp⟩
    · cases hl : rows.lasterr with
      | none =>
        have hmap : ∀ d2 : List SqlRow,
            List.map (Except.ok : SqlRow → Except SqlError SqlRow) d = List.map Except.ok d2 →
              d2 = d := by
          intro d2 h2
          exact ((List.map_injective_iff.mpr (fun a b hab => by injection hab)) h2).symm
        simp only [Latest, hrun, hd, latestLoop_ok, latestLoop, hl]
        refine ⟨by simp, ?_, ?_, by simp⟩
        · intro rows2 h2
          have : rows2 = rows := by simpa using h2.symm
          subst this
          refine ⟨?_, ?_, ?_⟩
          · intro pre e rest hp
            exfalso
            have hmem : (Except.error e : Except SqlError SqlRow) ∈ List.map Except.ok d := by
              rw [← hd, hp]; simp
            simp at hmem
          · intro d2 e _ hl2
            simp [hl] at hl2
          · intro d2 h2 _
            have := hmap d2 (by rw [← hd, h2])
            simp [this]
        · intro _
          exact ⟨rows, d, by simp, hd, hl, by simp⟩
      | some e =>
        simp only [Latest, hrun, hd, latestLoop_ok, latestLoop, hl]
        refine ⟨by simp, ?_, by simp, by simp⟩
        intro rows2 h2
        have : rows2 = rows := by simpa using h2.symm
        subst this
        refine ⟨?_, ?_, ?_⟩
        · intro pre e2 rest hp
          exfalso
          have hmem : (Except.error e2 : Except SqlError SqlRow) ∈ List.map Except.ok d := by
            rw [← hd, hp]; simp
          simp at hmem
        · intro d2 e2 _ hl2
          have : e2 = e := by simpa [hl] using hl2.symm
          simp [this]
        · intro d2 _ hl2
          simp [hl] at hl2
    · simp only [Latest, hrun, hp, latestLoop_error]
      refine ⟨by simp, ?_, by simp, by simp⟩
      intro rows2 h2
      have : rows2 = rows := by simpa using h2.symm
      subst this
      have hno : ∀ d2 : List SqlRow, rows2.deliverable ≠ d2.map Except.ok := by
        intro d2 h3
        have hmem : (Except.error e : Except SqlError SqlRow) ∈ List.map Except.ok d2 := by
          rw [← h3, hp]; simp
        simp at hmem
      refine ⟨?_, ?_, ?_⟩
      · intro pre2 e2 rest2 hp2
        have hfirst : ∀ (p1 p2 : List SqlRow) (e1 e2 : SqlError)
            (r1 r2 : List (Except SqlError SqlRow)),
            p1.map Except.ok ++ Except.error e1 :: r1 = p2.map Except.ok ++ Except.error e2 :: r2 →
              e1 = e2 := by
          intro p1
          induction p1 with
          | nil =>
            intro p2 e1 e2 r1 r2 hh
            cases p2 with
            | nil =>
              simp only [List.map_nil, List.nil_append, List.cons.injEq] at hh
              injection hh.1
            | cons a p2 => simp at hh
          | cons a p1 ih =>
            intro p2 e1 e2 r1 r2 hh
            cases p2 with
            | nil => simp at hh
            | cons b p2 =>
              simp only [List.map_cons, List.cons_append, List.cons.injEq] at hh
              exact ih p2 e1 e2 r1 r2 hh.2
        have := hfirst pre pre2 e e2 rest rest2 (by rw [← hp, hp2])
        simp [this]
      · intro d2 e2 h3 _
        exact absurd h3 (hno d2)
      · intro d2 h3 _
        exact absurd h3 (hno d2)

/-- C10: whenever the query of `Latest` succeeds and hands back a cursor, the
cursor is closed when `Latest` returns, whichever way it returns (after the
iteration, on a failed row scan, or on an error reported by `rows.Err()`). -/
theorem Latest_closes_cursor {σ : Type} (m : DB σ) (s : σ) (rows : Rows)
    (h : (m.Query latestStmt [] s).1 = Except.ok rows) :
    ∃ final, (LatestRun m s).2.1 = some final ∧ final.closed = true := by
  rcases hq : m.Query latestStmt [] s with ⟨out, s1⟩
  rw [hq] at h
  simp only at h
  subst h
  rw [Latest_of_query_ok m s s1 rows hq]
  exact ⟨_, rfl, rfl⟩

theorem Latest_closes_cursor_witness :
    ((mysql 50).Query latestStmt [] expiringTable).1
        = Except.ok (openCursor [Record.mk 1 "t" "c" 0 100]) ∧
      ∃ final, (LatestRun (mysql 50) expiringTable).2.1 = some final ∧ final.closed = true :=
  ⟨rfl, Latest_closes_cursor (mysql 50) expiringTable _ rfl⟩

/-- C6: when the table holds no live row at the instant of the query, `Latest`
returns the empty, non-nil slice (length 0) and a nil error; and so it does
for every driver whose query succeeds, delivers no row and reports no
iteration error. -/
theorem Latest_empty_of_no_live_rows (now : Int) (t : Table)
    (h : ∀ r ∈ t.rows, r.expires ≤ now) :
    Latest (mysql now) t = ((some [], none), t) ∧
    (∀ {σ : Type} (m : DB σ) (s : σ) (rows : Rows),
      (m.Query latestStmt [] s).1 = Except.ok rows → rows.deliverable = [] →
        rows.lasterr = none → (Latest m s).1 = (some [], none)) := by
  constructor
  · rw [Latest_mysql]
    have hnil : t.rows.filter (live now) = [] := by
      rw [List.filter_eq_nil_iff]
      intro r hr
      have := h r hr
      simp only [live, decide_eq_true_eq]
      omega
    simp [hnil, orderById]
  · intro σ m s rows hq hd hl
    rcases hq2 : m.Query latestStmt [] s with ⟨out, s1⟩
    rw [hq2] at hq
    simp only at hq
    subst hq
    simp [Latest, Latest_of_query_ok m s s1 rows hq2, hd, latestLoop, hl]

theorem Latest_empty_of_no_live_rows_witness :
    (∀ r ∈ expiringTable.rows, r.expires ≤ 100) ∧
      Latest (mysql 100) expiringTable = ((some [], none), expiringTable) :=
  ⟨by decide, (Latest_empty_of_no_live_rows 100 expiringTable (by decide)).1⟩

/-- C2: if `Insert(title, content, days)` with `days > 0`, run at instant `t0`
on a table with unique ids, returns id `k` and no error, then `Get(k)` at any
instant before `t0 + days` days returns no error and the snippet with `ID = k`,
that title and content, `Created = t0` and `Expires = Created + days` days,
which is strictly later than `Created`. -/
theorem Insert_then_Get (t : Table) (hwf : t.WF) (t0 t1 : Int) (title content : String)
    (days k : Int) (t' : Table) (hdays : 0 < days)
    (hins : Insert (mysql t0) title content days t = ((k, none), t'))
    (hbefore : t1 < t0 + days * 86400) :
    ∃ sn, Get (mysql t1) k t' = ((some sn, none), t') ∧ sn.ID = k ∧ sn.Title = title ∧
      sn.Content = content ∧ sn.Created = t0 ∧ sn.Expires = sn.Created + days * 86400 ∧
      sn.Created < sn.Expires := by
  obtain ⟨_, hids, hpos⟩ := hwf
  by_cases hfull : t.autoInc ≤ idMax
  · rw [Insert_mysql_ok _ _ _ _ _ hfull] at hins
    simp only [Prod.mk.injEq, and_true] at hins
    obtain ⟨hk, ht'⟩ := hins
    have hk2 : t.autoInc = k := by
      rw [← hk, toInt_of_int64]
      · omega
      · have : idMax = 2147483647 := rfl
        omega
    subst hk2
    subst ht'
    refine ⟨⟨t.autoInc, title, content, t0, dateAddDays t0 days⟩, ?_, rfl, rfl, rfl, rfl, rfl, ?_⟩
    · have hget := Get_mysql_some t1 t.autoInc
        { rows := t.rows ++ [Record.mk t.autoInc title content t0 (dateAddDays t0 days)],
          autoInc := t.autoInc + 1 } (Record.mk t.autoInc title content t0 (dateAddDays t0 days)) []
      simp only [scanInto, selectStar] at hget
      apply hget
      have hold : t.rows.filter (fun r => live t1 r && decide (r.id = t.autoInc)) = [] := by
        rw [List.filter_eq_nil_iff]
        intro r hr
        have := (hids r hr).2
        simp only [Bool.and_eq_true, decide_eq_true_eq, not_and]
        intro _
        omega
      rw [List.filter_append, hold]
      simp [live, dateAddDays, hbefore]
    · simp only [dateAddDays]
      omega
  · rw [Insert_mysql_exhausted _ _ _ _ _ hfull] at hins
    simp at hins

theorem Insert_then_Get_witness :
    emptyTable.WF ∧ (0 : Int) < 7 ∧
    Insert (mysql 1000) "Title A" "Body A" 7 emptyTable = (((1 : Int), none), tableA) ∧
    (2000 : Int) < 1000 + 7 * 86400 ∧
    ∃ sn, Get (mysql 2000) 1 tableA = ((some sn, none), tableA) ∧
      sn.ID = 1 ∧ sn.Title = "Title A" ∧ sn.Content = "Body A" ∧ sn.Created = 1000 ∧
      sn.Expires = sn.Created + 7 * 86400 ∧ sn.Created < sn.Expires :=
  ⟨by decide, by decide, by decide, by decide,
    Insert_then_Get emptyTable (by decide) 1000 2000 "Title A" "Body A" 7 1 tableA (by decide)
      (by decide) (by decide)⟩

/-- C4: on a table with unique ids, at any instant `now`, `Latest` returns no
error and exactly the first 10 (all, if fewer) of the live rows (those with
`expires > now`) in ascending order of id, each mapped to a snippet field by
field. Here `sorted` is the list of live rows in ascending id order: the one
permutation of the live rows whose ids increase. Hence the result has at most
10 entries, its ids increase strictly, no entry is expired, and every live
row left out has an id above every returned id. -/
theorem Latest_first_ten_live_by_id (t : Table) (hwf : t.WF) (now : Int) :
    ∃ (sorted : List Record) (l : List Snippet),
      sorted.Perm (t.rows.filter (fun r => decide (now < r.expires))) ∧
      sorted.Pairwise (fun a b => a.id < b.id) ∧
      (∀ other : List Record,
        other.Perm (t.rows.filter (fun r => decide (now < r.expires))) →
          other.Pairwise (fun a b => a.id < b.id) → other = sorted) ∧
      Latest (mysql now) t = ((some l, none), t) ∧
      l = (sorted.take 10).map
        (fun r => Snippet.mk r.id r.title r.content r.created r.expires) ∧
      l.length = min 10 (t.rows.filter (fun r => decide (now < r.expires))).length ∧
      l.length ≤ 10 ∧
      l.Pairwise (fun a b => a.ID < b.ID) ∧
      (∀ sn ∈ l, now < sn.Expires) ∧
      (∀ r ∈ t.rows, now < r.expires →
        Snippet.mk r.id r.title r.content r.created r.expires ∉ l → ∀ sn ∈ l, sn.ID < r.id) := by
  have hlive : (fun r : Record => decide (now < r.expires)) = live now := rfl
  rw [hlive]
  have hne : (t.rows.filter (live now)).Pairwise (fun a b => a.id ≠ b.id) :=
    hwf.1.sublist (List.filter_sublist _)
  have hperm := orderById_perm (t.rows.filter (live now))
  have hstrict := orderById_strict _ hne
  have hsplit := List.take_append_drop 10 (orderById (t.rows.filter (live now)))
  refine ⟨orderById (t.rows.filter (live now)), _, hperm, hstrict, ?_, Latest_mysql now t, ?_,
    ?_, ?_, ?_, ?_, ?_⟩
  · intro other hp hs
    exact (orderById_unique _ other hp hs).symm
  · simp [scanInto, selectStar]
  · simp [hperm.length_eq]
  · simp
  · rw [List.pairwise_map]
    exact (hstrict.sublist (List.take_sublist _ _)).imp (fun {a b} hab => hab)
  · intro sn hsn
    obtain ⟨r, hr, rfl⟩ := List.mem_map.mp hsn
    have hmem := hperm.subset (List.mem_of_mem_take hr)
    have := (List.mem_filter.mp hmem).2
    simpa [live, scanInto, selectStar] using this
  · intro r hr hrlive hout sn hsn
    obtain ⟨x, hx, rfl⟩ := List.mem_map.mp hsn
    have hrS : r ∈ orderById (t.rows.filter (live now)) :=
      hperm.symm.subset (List.mem_filter.mpr ⟨hr, by simpa [live] using hrlive⟩)
    have hnot : r ∉ (orderById (t.rows.filter (live now))).take 10 := by
      intro hin
      exact hout (List.mem_map.mpr ⟨r, hin, by simp [scanInto, selectStar]⟩)
    have hdrop : r ∈ (orderById (t.rows.filter (live now))).drop 10 := by
      rw [← hsplit] at hrS
      rcases List.mem_append.mp hrS with h1 | h1
      · exact absurd h1 hnot
      · exact h1
    rw [← hsplit, List.pairwise_append] at hstrict
    have := hstrict.2.2 x hx r hdrop
    simpa [scanInto, selectStar] using this

theorem Latest_first_ten_live_by_id_witness :
    twelve.WF ∧
    (∃ (sorted : List Record) (l : List Snippet),
      sorted.Perm (twelve.rows.filter (fun r => decide (2000 < r.expires))) ∧
      sorted.Pairwise (fun a b => a.id < b.id) ∧
      (∀ other : List Record,
        other.Perm (twelve.rows.filter (fun r => decide (2000 < r.expires))) →
          other.Pairwise (fun a b => a.id < b.id) → other = sorted) ∧
      Latest (mysql 2000) twelve = ((some l, none), twelve) ∧
      l = (sorted.take 10).map
        (fun r => Snippet.mk r.id r.title r.content r.created r.expires) ∧
      l.length = min 10 (twelve.rows.filter (fun r => decide (2000 < r.expires))).length ∧
      l.length ≤ 10 ∧
      l.Pairwise (fun a b => a.ID < b.ID) ∧
      (∀ sn ∈ l, 2000 < sn.Expires) ∧
      (∀ r ∈ twelve.rows, 2000 < r.expires →
        Snippet.mk r.id r.title r.content r.created r.expires ∉ l → ∀ sn ∈ l, sn.ID < r.id)) ∧
    (twelve.rows.filter (fun r => decide (2000 < r.expires))).length = 12 ∧
    (Latest (mysql 2000) twelve).1.1.map (List.map Snippet.ID)
      = some [1, 2, 3, 4, 5, 6, 7, 8, 9, 10] :=
  ⟨by decide, Latest_first_ten_live_by_id twelve (by decide) 2000, by decide, by decide⟩

/-- C3: on a table with unique ids, `Get(id)` at instant `now` returns
`ErrorNoRecord` with a nil snippet when no row has that id, and when the row
with that id has `expires ≤ now`. In particular, for `days ≤ 0` and a clock
that does not run backwards (`t0 ≤ now`), `Get` of the id that
`Insert(title, content, days)` returned at `t0` returns `ErrorNoRecord`. -/
theorem Get_not_found_of_absent_or_expired (t : Table) (hwf : t.WF) (now : Int) :
    (∀ id, (∀ r ∈ t.rows, r.id ≠ id) →
      Get (mysql now) id t = ((none, some ErrorNoRecord), t)) ∧
    (∀ r ∈ t.rows, r.expires ≤ now →
      Get (mysql now) r.id t = ((none, some ErrorNoRecord), t)) ∧
    (∀ (t0 : Int) (title content : String) (days : Int), days ≤ 0 → t0 ≤ now →
      Get (mysql now) (Insert (mysql t0) title content days t).1.1
          (Insert (mysql t0) title content days t).2
        = ((none, some ErrorNoRecord), (Insert (mysql t0) title content days t).2)) := by
  obtain ⟨hne, hids, hpos⟩ := hwf
  refine ⟨?_, ?_, ?_⟩
  · intro id habsent
    apply Get_mysql_none
    apply filter_id_eq_nil
    intro r hr hid
    exact absurd hid (habsent r hr)
  · intro r hr hexp
    apply Get_mysql_none
    apply filter_id_eq_nil
    intro r2 hr2 hid
    have : r2 = r := eq_of_id_eq t.rows hne r2 r hr2 hr hid
    rw [this]
    exact hexp
  · intro t0 title content days hdays hclock
    by_cases hfull : t.autoInc ≤ idMax
    · rw [Insert_mysql_ok _ _ _ _ _ hfull]
      have hk : toInt t.autoInc = t.autoInc := by
        apply toInt_of_int64
        · omega
        · have : idMax = 2147483647 := rfl
          omega
      simp only [hk]
      apply Get_mysql_none
      apply filter_id_eq_nil
      intro r hr hid
      rcases List.mem_append.mp hr with hold | hnew
      · have := (hids r hold).2
        omega
      · have hr2 : r = Record.mk t.autoInc title content t0 (dateAddDays t0 days) := by
          simpa using hnew
        rw [hr2]
        simp only [dateAddDays]
        have : days * 86400 ≤ 0 := by omega
        omega
    · rw [Insert_mysql_exhausted _ _ _ _ _ hfull]
      show Get (mysql now) 0 t = ((none, some ErrorNoRecord), t)
      apply Get_mysql_none
      apply filter_id_eq_nil
      intro r hr hid
      have := (hids r hr).1
      omega

theorem Get_not_found_of_absent_or_expired_witness :
    expiringTable.WF ∧
    Get (mysql 100) 7 expiringTable = ((none, some ErrorNoRecord), expiringTable) ∧
    Get (mysql 100) 1 expiringTable = ((none, some ErrorNoRecord), expiringTable) ∧
    (Get (mysql 100) (Insert (mysql 100) "t" "c" (-1) expiringTable).1.1
        (Insert (mysql 100) "t" "c" (-1) expiringTable).2).1 = (none, some ErrorNoRecord) ∧
    (Get (mysql 100) (Insert (mysql 100) "t" "c" 0 expiringTable).1.1
        (Insert (mysql 100) "t" "c" 0 expiringTable).2).1 = (none, some ErrorNoRecord) :=
  ⟨by decide,
    (Get_not_found_of_absent_or_expired expiringTable (by decide) 100).1 7 (by decide),
    (Get_not_found_of_absent_or_expired expiringTable (by decide) 100).2.1
      (Record.mk 1 "t" "c" 0 100) (by decide) (by decide),
    congrArg Prod.fst ((Get_not_found_of_absent_or_expired expiringTable (by decide) 100).2.2
      100 "t" "c" (-1) (by decide) (by decide)),
    congrArg Prod.fst ((Get_not_found_of_absent_or_expired expiringTable (by decide) 100).2.2
      100 "t" "c" 0 (by decide) (by decide))⟩

/-- C8, the claim as stated fails: with no write in between, `Get(1)` one
second before the row expires returns the snippet, and `Get(1)` at the expiry
instant returns `ErrorNoRecord`. -/
theorem Get_differs_across_expiry :
    (Get (mysql 99) 1 expiringTable).2 = expiringTable ∧
    (Get (mysql 99) 1 expiringTable).1 = (some (Snippet.mk 1 "t" "c" 0 100), none) ∧
    (Get (mysql 100) 1 (Get (mysql 99) 1 expiringTable).2).1 = (none, some ErrorNoRecord) ∧
    (Get (mysql 100) 1 (Get (mysql 99) 1 expiringTable).2).1
      ≠ (Get (mysql 99) 1 expiringTable).1 := by
  decide

/-- C8 as amended: `Get` leaves the table as it is, and two successive calls
`Get(k)` at instants `t1` and `t2` with no write in between return equal
results whenever every row with id `k` is live at both instants or at neither
(as it is when both queries see the same instant). -/
theorem Get_idempotent_of_same_liveness (t : Table) (k t1 t2 : Int)
    (h : ∀ r ∈ t.rows, r.id = k → (t1 < r.expires ↔ t2 < r.expires)) :
    (Get (mysql t1) k t).2 = t ∧
    Get (mysql t2) k (Get (mysql t1) k t).2 = Get (mysql t1) k t := by
  have hstate := Get_mysql_state t1 k t
  refine ⟨hstate, ?_⟩
  rw [hstate]
  have hf := filter_id_same_liveness t1 t2 k t.rows h
  cases h1 : t.rows.filter (fun r => live t1 r && decide (r.id = k)) with
  | nil => rw [Get_mysql_none t1 k t h1, Get_mysql_none t2 k t (hf.trans h1)]
  | cons r rest =>
    rw [Get_mysql_some t1 k t r rest h1, Get_mysql_some t2 k t r rest (hf.trans h1)]

theorem Get_idempotent_of_same_liveness_witness :
    (∀ r ∈ expiringTable.rows, r.id = 1 → ((50 : Int) < r.expires ↔ (99 : Int) < r.expires)) ∧
    (Get (mysql 50) 1 expiringTable).2 = expiringTable ∧
    Get (mysql 99) 1 (Get (mysql 50) 1 expiringTable).2 = Get (mysql 50) 1 expiringTable :=
  ⟨by decide, Get_idempotent_of_same_liveness expiringTable 1 50 99 (by decide)⟩

/-- C9, the code at twelve live snippets: `Latest` returns the snippets with
ids 1 to 10, created at instants 1000 to 1009, while the two most recently
created live snippets (ids 11 and 12, created at 1010 and 1011) are left out. -/
theorem Latest_returns_the_ten_oldest :
    (Latest (mysql 2000) twelve).1.1.map (List.map (fun sn => (sn.ID, sn.Created)))
      = some [(1, 1000), (2, 1001), (3, 1002), (4, 1003), (5, 1004), (6, 1005), (7, 1006),
          (8, 1007), (9, 1008), (10, 1009)] ∧
    (twelve.rows.filter (live 2000)).map (fun r => (r.id, r.created))
      = [(1, 1000), (2, 1001), (3, 1002), (4, 1003), (5, 1004), (6, 1005), (7, 1006),
          (8, 1007), (9, 1008), (10, 1009), (11, 1010), (12, 1011)] := by
  decide

end models
